import Mathlib

/-!
# Verification of the Smartsheet batch-analysis orchestrator

Shallow embedding of `smartsheet_ops/batch_analysis.py`: the Chunker
(`BatchProcessor._chunk_content`), the Row Analyzer chunk chaining
(`BatchProcessor._process_batch` / `_process_chunk`, async variant), the
job store (`JobManager`), job start (`BatchProcessor.start_analysis`),
the worker/coordinator pipeline (`BatchProcessor._process_batch` worker
variant and `BatchProcessor._coordinate_job`), cancellation
(`JobManager.cancel_job` / `BatchProcessor.cancel_analysis`) and restart
recovery (`BatchProcessor._recover_interrupted_jobs`).

External collaborators (the Azure OpenAI completion call, the Smartsheet
row source, the filesystem and the clock) are modelled as explicit
oracle parameters; everything else is translated directly from the
Python source.  Python's string primitives `str.split` and `str.replace`
are embedded as structurally recursive functions on character lists
(Lean's own `String.splitOn` / `String.replace` are opaque to kernel
evaluation in this toolchain), so every definition here is executable.
-/

namespace SmartsheetBatch

/-- Modelled from the spec: the Tokenizer component ("counts tokens in a
string for a fixed encoding scheme; pure function, no state").  The
concrete encoding used by `BatchProcessor._count_tokens`
(tiktoken `cl100k_base`) is an external library dependency that is not
part of this repository, so we model one token per character — a fixed,
deterministic, non-negative count. -/
def count_tokens (text : String) : Nat := text.length

/-- Python `content.split('. ')` at the character level: scan left to
right; each leftmost, non-overlapping occurrence of `". "` ends the
current piece.  `acc` is the piece accumulated so far. -/
def split_dot_space : List Char → List Char → List (List Char)
  | [], acc => [acc]
  | '.' :: ' ' :: rest, acc => acc :: split_dot_space rest []
  | c :: rest, acc => split_dot_space rest (acc ++ [c])

/-- The sentence list of `BatchProcessor._chunk_content` line 255:
`sentences = content.split('. ')`. -/
def py_split_sentences (content : String) : List String :=
  (split_dot_space content.data []).map String.mk

/-- Python `'. '.join(pieces)`. -/
def join_dot_space : List String → String
  | [] => ""
  | [s] => s
  | s :: rest => s ++ ". " ++ join_dot_space rest

/-- Character-level `'. '.join`, used to relate `join_dot_space` to
`split_dot_space`. -/
def joinCL : List (List Char) → List Char
  | [] => []
  | [g] => g
  | g :: rest => g ++ '.' :: ' ' :: joinCL rest

/-- The sentence-grouping loop of `BatchProcessor._chunk_content`
(batch_analysis.py lines 248-272), abstracted over the token counter.
State: the list of sentences still to process, `currentChunk` and
`currentTokens` exactly as in the Python loop.  The returned groups are
the successive values of `current_chunk` at the moments the source
appends `'. '.join(current_chunk) + '.'` to `chunks`, in order. -/
def chunk_groups (count : String → Nat) (maxTokens : Nat) :
    List String → List String → Nat → List (List String)
  | [], currentChunk, _ =>
    match currentChunk with
    | [] => []
    | _ => [currentChunk]
  | sentence :: rest, currentChunk, currentTokens =>
    if currentTokens + count sentence > maxTokens then
      match currentChunk with
      | [] => chunk_groups count maxTokens rest [sentence] (count sentence)
      | _ => currentChunk :: chunk_groups count maxTokens rest [sentence] (count sentence)
    else
      chunk_groups count maxTokens rest (currentChunk ++ [sentence])
        (currentTokens + count sentence)

/-- `'. '.join(current_chunk) + '.'` (batch_analysis.py lines 262 and 270). -/
def joinSentences (g : List String) : String := join_dot_space g ++ "."

/-- `BatchProcessor._chunk_content`: split `content` on the sentence
delimiter `". "`, run the grouping loop from the initial state
(`current_chunk = []`, `current_tokens = 0`), and emit each flushed
group as `'. '.join(group) + '.'`. -/
def chunk_content (count : String → Nat) (content : String) (maxTokens : Nat) :
    List String :=
  (chunk_groups count maxTokens (py_split_sentences content) [] 0).map joinSentences

theorem chunk_groups_join (count : String → Nat) (maxTokens : Nat) :
    ∀ (ss cur : List String) (t : Nat),
      (chunk_groups count maxTokens ss cur t).flatten = cur ++ ss := by
  intro ss
  induction ss with
  | nil =>
    intro cur t
    cases cur <;> simp [chunk_groups]
  | cons s rest ih =>
    intro cur t
    by_cases h : t + count s > maxTokens
    · cases cur with
      | nil => simp [chunk_groups, h, ih]
      | cons c cs => simp [chunk_groups, h, ih]
    · simp [chunk_groups, h, ih]

theorem chunk_groups_nonempty (count : String → Nat) (maxTokens : Nat) :
    ∀ (ss cur : List String) (t : Nat),
      ∀ g ∈ chunk_groups count maxTokens ss cur t, g ≠ [] := by
  intro ss
  induction ss with
  | nil =>
    intro cur t g hg
    cases cur with
    | nil => simp [chunk_groups] at hg
    | cons c cs =>
      simp [chunk_groups] at hg
      subst hg; simp
  | cons s rest ih =>
    intro cur t g hg
    by_cases h : t + count s > maxTokens
    · cases cur with
      | nil =>
        simp only [chunk_groups, if_pos h] at hg
        exact ih [s] (count s) g hg
      | cons c cs =>
        simp only [chunk_groups, if_pos h] at hg
        rcases List.mem_cons.mp hg with hg | hg
        · subst hg; simp
        · exact ih [s] (count s) g hg
    · simp only [chunk_groups, if_neg h] at hg
      exact ih (cur ++ [s]) (t + count s) g hg

theorem chunk_groups_bound (count : String → Nat) (maxTokens : Nat) :
    ∀ (ss cur : List String) (t : Nat),
      t = (cur.map count).sum →
      (cur = [] ∨ (cur.map count).sum ≤ maxTokens ∨ cur.length = 1) →
      ∀ g ∈ chunk_groups count maxTokens ss cur t,
        (g.map count).sum ≤ maxTokens ∨ g.length = 1 := by
  intro ss
  induction ss with
  | nil =>
    intro cur t ht hinv g hg
    cases cur with
    | nil => simp [chunk_groups] at hg
    | cons c cs =>
      simp [chunk_groups] at hg
      subst hg
      rcases hinv with h | h | h
      · exact absurd h (by simp)
      · exact Or.inl h
      · exact Or.inr h
  | cons s rest ih =>
    intro cur t ht hinv g hg
    by_cases h : t + count s > maxTokens
    · cases cur with
      | nil =>
        simp only [chunk_groups, if_pos h] at hg
        exact ih [s] (count s) (by simp) (Or.inr (Or.inr (by simp))) g hg
      | cons c cs =>
        simp only [chunk_groups, if_pos h] at hg
        rcases List.mem_cons.mp hg with hg | hg
        · subst hg
          rcases hinv with h' | h' | h'
          · exact absurd h' (by simp)
          · exact Or.inl h'
          · exact Or.inr h'
        · exact ih [s] (count s) (by simp) (Or.inr (Or.inr (by simp))) g hg
    · simp only [chunk_groups, if_neg h] at hg
      refine ih (cur ++ [s]) (t + count s) (by simp [ht]) ?_ g hg
      have hle : t + count s ≤ maxTokens := Nat.le_of_not_lt h
      refine Or.inr (Or.inl ?_)
      simp [← ht]
      omega

theorem split_dot_space_ne_nil (l acc : List Char) :
    split_dot_space l acc ≠ [] := by
  induction l, acc using split_dot_space.induct with
  | case1 acc => simp [split_dot_space]
  | case2 rest acc ih => simp [split_dot_space]
  | case3 c rest acc h ih =>
    rw [split_dot_space.eq_3 acc c rest h]
    exact ih

theorem joinCL_split_dot_space :
    ∀ (l acc : List Char), joinCL (split_dot_space l acc) = acc ++ l := by
  intro l acc
  induction l, acc using split_dot_space.induct with
  | case1 acc => simp [split_dot_space, joinCL]
  | case2 rest acc ih =>
    rw [split_dot_space]
    rcases hsp : split_dot_space rest [] with _ | ⟨g, gs⟩
    · exact absurd hsp (split_dot_space_ne_nil rest [])
    · rw [hsp] at ih
      simp [joinCL, ih]
  | case3 c rest acc h ih =>
    rw [split_dot_space.eq_3 acc c rest h, ih]
    simp

theorem joinCL_cons_cons (a b : List Char) (t : List (List Char)) :
    joinCL (a :: b :: t) = a ++ '.' :: ' ' :: joinCL (b :: t) := rfl

theorem join_cons_cons (a b : String) (t : List String) :
    join_dot_space (a :: b :: t) = a ++ ". " ++ join_dot_space (b :: t) := rfl

theorem join_data : ∀ l : List String, (join_dot_space l).data = joinCL (l.map String.data)
  | [] => rfl
  | [s] => rfl
  | a :: b :: t => by
    rw [join_cons_cons]
    simp only [String.data_append, join_data (b :: t), List.map_cons]
    rw [joinCL_cons_cons]
    simp [List.append_assoc]

theorem joinCL_append : ∀ (a b : List (List Char)), a ≠ [] → b ≠ [] →
    joinCL (a ++ b) = joinCL a ++ '.' :: ' ' :: joinCL b
  | [], _, ha, _ => absurd rfl ha
  | [x], b, _, hb => by
    cases b with
    | nil => exact absurd rfl hb
    | cons y ys => simp [joinCL_cons_cons, joinCL]
  | x :: x' :: t, b, _, hb => by
    have ih := joinCL_append (x' :: t) b (by simp) hb
    simp only [List.cons_append] at ih ⊢
    rw [joinCL_cons_cons, ih, joinCL_cons_cons]
    simp [List.append_assoc]

theorem joinCL_flatten : ∀ (gss : List (List (List Char))), (∀ g ∈ gss, g ≠ []) →
    joinCL (gss.map joinCL) = joinCL gss.flatten
  | [], _ => rfl
  | [g], _ => by simp [joinCL]
  | g :: g' :: t, h => by
    have ih := joinCL_flatten (g' :: t) (fun x hx => h x (List.mem_cons_of_mem g hx))
    have hg : g ≠ [] := h g (List.mem_cons_self g _)
    have hflat : g' ++ t.flatten ≠ [] := by
      have hg' : g' ≠ [] := h g' (by simp)
      cases hgg : g' <;> simp_all
    simp only [List.map_cons, List.flatten_cons] at ih ⊢
    rw [joinCL_cons_cons, ih, joinCL_append g (g' ++ t.flatten) hg hflat]

theorem join_py_split (content : String) :
    join_dot_space (py_split_sentences content) = content := by
  apply String.ext
  rw [join_data, py_split_sentences]
  simp only [List.map_map]
  have hmk : List.map (String.data ∘ String.mk) (split_dot_space content.data [])
      = split_dot_space content.data [] := by
    rw [show String.data ∘ String.mk = id from rfl, List.map_id]
  rw [hmk, joinCL_split_dot_space]
  rfl

theorem join_dot_space_flatten (gs : List (List String)) (h : ∀ g ∈ gs, g ≠ []) :
    join_dot_space (gs.map join_dot_space) = join_dot_space gs.flatten := by
  apply String.ext
  rw [join_data, join_data]
  simp only [List.map_map]
  have h1 : gs.map (String.data ∘ join_dot_space)
      = (gs.map (List.map String.data)).map joinCL := by
    simp [Function.comp, join_data]
  have h2 : ∀ x ∈ gs.map (List.map String.data), x ≠ [] := by
    intro x hx
    rcases List.mem_map.mp hx with ⟨g, hg, hgx⟩
    subst hgx
    simpa using h g hg
  rw [h1, joinCL_flatten _ h2]
  congr 1
  rw [← List.map_flatten]

/-- C1.  Amended Chunker contract, proved for every token counter,
content string and budget: (a) the groups of sentences that
`_chunk_content` emits concatenate to exactly `content.split('. ')`, in
order, so no sentence is truncated, dropped or reordered; (b) each
emitted chunk is `'. '.join(group) + '.'` for its group; (c) the
delimiter-normalized concatenation of the chunks (drop each chunk's
appended final `"."` and re-join the groups on `". "`) reproduces the
content exactly; (d) each group's total sentence token count is at most
the budget unless the group is a single (oversized) sentence, which is
emitted whole.  The token count of the chunk *string*, however, can
exceed the budget even for multi-sentence chunks, because the loop
never counts the `". "` delimiters it re-inserts nor the final `"."`
it appends — see the counterexample. -/
theorem C1_chunker_amended (count : String → Nat) (content : String) (N : Nat) :
    (chunk_groups count N (py_split_sentences content) [] 0).flatten
        = py_split_sentences content ∧
    chunk_content count content N
      = (chunk_groups count N (py_split_sentences content) [] 0).map joinSentences ∧
    join_dot_space
        ((chunk_groups count N (py_split_sentences content) [] 0).map join_dot_space)
      = content ∧
    ∀ g ∈ chunk_groups count N (py_split_sentences content) [] 0,
      (g.map count).sum ≤ N ∨ g.length = 1 := by
  refine ⟨by simpa using chunk_groups_join count N (py_split_sentences content) [] 0,
         rfl, ?_, ?_⟩
  · rw [join_dot_space_flatten _ (chunk_groups_nonempty count N (py_split_sentences content) [] 0),
        (by simpa using chunk_groups_join count N (py_split_sentences content) [] 0 :
          (chunk_groups count N (py_split_sentences content) [] 0).flatten
            = py_split_sentences content),
        join_py_split]
  · exact chunk_groups_bound count N (py_split_sentences content) [] 0 rfl (Or.inl rfl)

/-- C1 counterexample.  With content `"a. b"` and budget 2, every
sentence (`"a"`, `"b"`) is within the budget and both land in one
group, yet the single emitted chunk `"a. b."` has token count 5 > 2 and
is not a single sentence that alone exceeds the budget — refuting
"every chunk's token count is at most N except when the chunk is a
single sentence that alone exceeds N": `_chunk_content` only sums the
sentences' own token counts and never counts the `". "` delimiter and
final `"."` characters it adds back into the chunk string. -/
theorem C1_counterexample :
    chunk_content count_tokens "a. b" 2 = ["a. b."] ∧
    (∀ s ∈ py_split_sentences "a. b", count_tokens s ≤ 2) ∧
    (chunk_groups count_tokens 2 (py_split_sentences "a. b") [] 0).length = 1 ∧
    (chunk_groups count_tokens 2 (py_split_sentences "a. b") [] 0).flatten.length = 2 ∧
    count_tokens "a. b." > 2 := by
  refine ⟨by decide, by decide, by decide, by decide, by decide⟩

/-! ## Row Analyzer: `_process_chunk` / `_process_batch` (async variant) -/

/-- Python `str.replace` at the character level, with fuel for
structural recursion (fuel = the length of the scanned list suffices:
every step consumes at least one character).  Replaces every leftmost,
non-overlapping occurrence of `pat`. -/
def replace_chars (pat repl : List Char) : Nat → List Char → List Char
  | _, [] => []
  | 0, l => l
  | fuel + 1, c :: rest =>
    if pat.isPrefixOf (c :: rest) ∧ pat ≠ [] then
      repl ++ replace_chars pat repl fuel (rest.drop (pat.length - 1))
    else c :: replace_chars pat repl fuel rest

/-- Python `s.replace(pat, repl)` (for the non-empty patterns used by
the source: `"{{content}}"`, `"{{previous_result}}"`, `"{content}"`). -/
def py_replace (s pat repl : String) : String :=
  String.mk (replace_chars pat.data repl.data s.data.length s.data)

/-- One prompt template of `BatchProcessor.templates`
(batch_analysis.py lines 201-223): system prompt, initial prompt,
continuation prompt, `max_tokens` (output budget) and
`max_input_tokens` (input budget). -/
structure Template where
  system_prompt : String
  initial_prompt : String
  continuation_prompt : String
  max_tokens : Nat
  max_input_tokens : Nat
deriving DecidableEq

/-- `self.templates[AnalysisType.SUMMARIZE]` (lines 202-208). -/
def summarize_template : Template where
  system_prompt := "You are an AI assistant specialized in summarizing text. Provide clear, concise summaries that capture the main points."
  initial_prompt := "Summarize the following text concisely: {{content}}"
  continuation_prompt := "Continue summarizing, incorporating this new content while maintaining consistency with the previous summary: {{content}}\n\nPrevious summary: {{previous_result}}"
  max_tokens := 150
  max_input_tokens := 6000

/-- `self.templates[AnalysisType.SENTIMENT]` (lines 209-215). -/
def sentiment_template : Template where
  system_prompt := "You are an AI assistant specialized in sentiment analysis. Provide numerical sentiment scores between -1 and 1."
  initial_prompt := "Analyze the sentiment of the following text. Return only a number between -1 (most negative) and 1 (most positive): {{content}}"
  continuation_prompt := "Analyze the sentiment of this additional content, considering it together with the previous analysis ({{previous_result}}). Return a single number between -1 and 1: {{content}}"
  max_tokens := 10
  max_input_tokens := 6000

/-- `self.templates[AnalysisType.INTERPRET]` (lines 216-222). -/
def interpret_template : Template where
  system_prompt := "You are an AI assistant specialized in analyzing text for healthcare and medical contexts. Extract key insights and patterns."
  initial_prompt := "Interpret and extract key insights from the following text: {{content}}"
  continuation_prompt := "Continue analysis, incorporating these new items while maintaining consistency with previous insights.\n\nPrevious insights: {{previous_result}}\n\nNew content: {{content}}"
  max_tokens := 300
  max_input_tokens := 6000

/-- The prompt selection of `BatchProcessor._process_chunk` (lines
297-301).  Python tests `if previous_result:` — truthiness, so both
`None` and the empty string select the initial prompt. -/
def build_prompt (template : Template) (content : String)
    (previous_result : Option String) : String :=
  match previous_result with
  | some p =>
    if p = "" then py_replace template.initial_prompt "{{content}}" content
    else py_replace (py_replace template.continuation_prompt "{{content}}" content)
      "{{previous_result}}" p
  | none => py_replace template.initial_prompt "{{content}}" content

/-- `BatchProcessor._process_chunk`: build the prompt and issue one
completion call.  `complete` is the Text Completion Service oracle
(`client.chat.completions.create` followed by `.strip()`), taking the
system prompt and the user prompt. -/
def process_chunk (complete : String → String → String) (template : Template)
    (content : String) (previous_result : Option String) : String :=
  complete template.system_prompt (build_prompt template content previous_result)

/-- The chunk loop of `_process_batch` (lines 286-289):
`result = None; for chunk in chunks: result = _process_chunk(chunk, t, result)`.
First component: the final `result`; second: the prompts sent, in call
order (one completion call per chunk). -/
def process_chunks (complete : String → String → String) (template : Template) :
    List String → Option String → Option String × List String
  | [], result => (result, [])
  | chunk :: rest, result =>
    let prompt := build_prompt template chunk result
    let r := complete template.system_prompt prompt
    let out := process_chunks complete template rest (some r)
    (out.1, prompt :: out.2)

/-- The successive completion results of the chunk loop, in call order. -/
def chunk_results (complete : String → String → String) (template : Template) :
    List String → Option String → List String
  | [], _ => []
  | chunk :: rest, result =>
    let r := complete template.system_prompt (build_prompt template chunk result)
    r :: chunk_results complete template rest (some r)

/-- `BatchProcessor._process_batch` (async variant, lines 274-291): if
the content's token count exceeds `max_input_tokens`, chunk it and loop
(starting from `result = None`); otherwise a single `_process_chunk`
call with the given `previous_result`. -/
def process_batch (count : String → Nat) (complete : String → String → String)
    (template : Template) (content : String) (previous_result : Option String) :
    Option String :=
  if count content > template.max_input_tokens then
    (process_chunks complete template
      (chunk_content count content template.max_input_tokens) none).1
  else
    some (process_chunk complete template content previous_result)

/-- The prompts `_process_batch` sends, in call order. -/
def process_batch_prompts (count : String → Nat) (complete : String → String → String)
    (template : Template) (content : String) (previous_result : Option String) :
    List String :=
  if count content > template.max_input_tokens then
    (process_chunks complete template
      (chunk_content count content template.max_input_tokens) none).2
  else
    [build_prompt template content previous_result]

theorem chunk_results_length (complete : String → String → String) (template : Template) :
    ∀ (l : List String) (prev : Option String),
      (chunk_results complete template l prev).length = l.length := by
  intro l
  induction l with
  | nil => intro prev; rfl
  | cons c rest ih => intro prev; simp [chunk_results, ih]

theorem process_chunks_prompts (complete : String → String → String) (template : Template) :
    ∀ (l : List String) (prev : Option String),
      (process_chunks complete template l prev).2
        = (l.zip (prev :: (chunk_results complete template l prev).map some)).map
            (fun x => build_prompt template x.1 x.2) := by
  intro l
  induction l with
  | nil => intro prev; rfl
  | cons c rest ih =>
    intro prev
    simp [process_chunks, chunk_results, ih]

theorem process_chunks_result (complete : String → String → String) (template : Template) :
    ∀ (l : List String) (prev : Option String),
      (process_chunks complete template l prev).1
        = ((chunk_results complete template l prev).getLast?).orElse (fun _ => prev) := by
  intro l
  induction l with
  | nil => intro prev; rfl
  | cons c rest ih =>
    intro prev
    simp only [process_chunks, chunk_results, ih]
    cases hrest : chunk_results complete template rest
        (some (complete template.system_prompt (build_prompt template c prev))) with
    | nil => rfl
    | cons r rs =>
      rcases hlast : (r :: rs).getLast? with _ | a
      · simp [List.getLast?_eq_none_iff] at hlast
      · rw [List.getLast?_cons_cons, hlast]
        rfl

theorem orElse_none (x : Option String) : (x.orElse fun _ => none) = x := by
  cases x <;> rfl

/-- A concrete template with a small input budget, used to evaluate the
Row Analyzer on concrete content (the analyzer's control flow depends
only on `max_input_tokens` and the prompt strings, both arbitrary
template data). -/
def test_template : Template where
  system_prompt := "sys"
  initial_prompt := "Initial: {{content}}"
  continuation_prompt := "Continue: {{content}} after {{previous_result}}"
  max_tokens := 10
  max_input_tokens := 2

/-- C2.  Amended Row Analyzer contract, proved for every token counter,
completion oracle, template and over-budget content: the analyzer
splits the content with the Chunker at `template.max_input_tokens` and
issues exactly one completion call per chunk, strictly in order — the
number of calls equals the number of chunks (not necessarily 3 for
content 3 times the budget); the i-th prompt is `build_prompt` applied
to the i-th chunk and the (i-1)-th call's result (`None` for the first
chunk, so it uses the initial prompt; a *non-empty* previous result
selects the continuation prompt populated with that result, while an
empty previous result falls back to the initial prompt — Python tests
`if previous_result:`); and the final chunk's result is the value
returned for the row. -/
theorem C2_row_analyzer_amended (count : String → Nat)
    (complete : String → String → String) (template : Template) (content : String)
    (h : count content > template.max_input_tokens) :
    (chunk_results complete template
        (chunk_content count content template.max_input_tokens) none).length
      = (chunk_content count content template.max_input_tokens).length ∧
    process_batch_prompts count complete template content none
      = ((chunk_content count content template.max_input_tokens).zip
          (none :: (chunk_results complete template
            (chunk_content count content template.max_input_tokens) none).map some)).map
          (fun x => build_prompt template x.1 x.2) ∧
    process_batch count complete template content none
      = (chunk_results complete template
          (chunk_content count content template.max_input_tokens) none).getLast? := by
  refine ⟨chunk_results_length complete template _ none, ?_, ?_⟩
  · rw [process_batch_prompts, if_pos h]
    exact process_chunks_prompts complete template _ none
  · rw [process_batch, if_pos h, process_chunks_result, orElse_none]

/-- C2 witness: the amended contract evaluated at concrete content
`"ab. cd"` (6 tokens, budget 2, chunks `["ab.", "cd."]`) with a
constant completion oracle. -/
theorem C2_row_analyzer_amended_witness :
    count_tokens "ab. cd" > test_template.max_input_tokens ∧
    ((chunk_results (fun _ _ => "r") test_template
        (chunk_content count_tokens "ab. cd" test_template.max_input_tokens) none).length
      = (chunk_content count_tokens "ab. cd" test_template.max_input_tokens).length ∧
    process_batch_prompts count_tokens (fun _ _ => "r") test_template "ab. cd" none
      = ((chunk_content count_tokens "ab. cd" test_template.max_input_tokens).zip
          (none :: (chunk_results (fun _ _ => "r") test_template
            (chunk_content count_tokens "ab. cd" test_template.max_input_tokens) none).map some)).map
          (fun x => build_prompt test_template x.1 x.2) ∧
    process_batch count_tokens (fun _ _ => "r") test_template "ab. cd" none
      = (chunk_results (fun _ _ => "r") test_template
          (chunk_content count_tokens "ab. cd" test_template.max_input_tokens) none).getLast?) :=
  ⟨by decide,
   C2_row_analyzer_amended count_tokens (fun _ _ => "r") test_template "ab. cd" (by decide)⟩

/-- C2 counterexample.  Content that is one single sentence of exactly
3 times the template's input token budget is over budget, yet the Row
Analyzer issues exactly ONE completion call, not 3: the Chunker cannot
split inside a sentence, so the whole content becomes one oversized
chunk.  This refutes "content 3 times the budget yields exactly 3
completion calls" (the call count is the chunk count, which depends on
sentence boundaries, not on the token ratio). -/
theorem C2_counterexample :
    count_tokens "aaaaaa" = 3 * test_template.max_input_tokens ∧
    count_tokens "aaaaaa" > test_template.max_input_tokens ∧
    (process_batch_prompts count_tokens (fun _ _ => "r") test_template "aaaaaa" none).length
      = 1 := by
  refine ⟨by decide, by decide, by decide⟩

/-! ## Job store: `JobManager` and the persisted status file -/

/-- A JSON value as persisted in `status.json`: a string, a number, or
the flat string-to-string `timestamps` sub-object. -/
inductive JVal where
  | s : String → JVal
  | n : Nat → JVal
  | d : List (String × String) → JVal
deriving DecidableEq

/-- One job's persisted record: a Python dict from field name to value.
Lookup takes the first matching key. -/
abbrev Record := List (String × JVal)

def getField (r : Record) (k : String) : Option JVal :=
  (r.find? (fun p => p.1 = k)).map (fun p => p.2)

/-- Python `{**old, **upd}`: keys of `upd` win.  Represented so that
`getField` prefers `upd` (first match), which is lookup-equivalent to
the Python merge. -/
def mergeRecord (old upd : Record) : Record := upd ++ old

/-- The whole status file: a Python dict from job id to record. -/
abbrev Store := List (String × Record)

/-- Python dict assignment `d[k] = v`: replace in place if the key
exists, else append. -/
def setKey {α : Type} : List (String × α) → String → α → List (String × α)
  | [], k, v => [(k, v)]
  | p :: rest, k, v => if p.1 = k then (k, v) :: rest else p :: setKey rest k v

def getJob (st : Store) (id : String) : Option Record :=
  (st.find? (fun p => p.1 = id)).map (fun p => p.2)

def setJob (st : Store) (id : String) (r : Record) : Store := setKey st id r

def exceptDecEq {e a : Type} [DecidableEq e] [DecidableEq a] : DecidableEq (Except e a)
  | .error x, .error y =>
    if h : x = y then .isTrue (by rw [h]) else .isFalse (by intro he; cases he; exact h rfl)
  | .error _, .ok _ => .isFalse (by intro he; cases he)
  | .ok _, .error _ => .isFalse (by intro he; cases he)
  | .ok x, .ok y =>
    if h : x = y then .isTrue (by rw [h]) else .isFalse (by intro he; cases he; exact h rfl)

instance {e a : Type} [DecidableEq e] [DecidableEq a] : DecidableEq (Except e a) := exceptDecEq

/-- The filesystem state behind `status.json`, with explicit failure
injection: `readResult` is what `open`/`json.load` produce (either the
parsed store or an exception), `saveFails` makes `open`/`json.dump`
raise in `_save_status`. -/
structure FS where
  readResult : Except String Store
  saveFails : Bool
deriving DecidableEq

/-- `JobManager._load_status` (batch_analysis.py lines 75-83): return
the parsed file, or the empty dict when reading/parsing raises. -/
def load_status (fs : FS) : Store :=
  match fs.readResult with
  | .ok st => st
  | .error _ => []

/-- `JobManager._save_status` (lines 85-92): write the dict; a raised
exception is logged and swallowed, leaving the file as it was. -/
def save_status (fs : FS) (st : Store) : FS :=
  if fs.saveFails then fs else { fs with readResult := .ok st }

/-- `JobManager.update_job_status` (lines 94-98):
`current[job_id] = {**current.get(job_id, {}), **status_update}` then
save.  Total: it never raises, whatever the filesystem does. -/
def update_job_status (fs : FS) (job_id : String) (upd : Record) : FS :=
  let current := load_status fs
  save_status fs (setJob current job_id (mergeRecord ((getJob current job_id).getD []) upd))

/-- `JobManager.get_job_status` (lines 100-106): the stored record,
with `sheet_id` stamped in when the record is non-empty (Python
truthiness of the dict). -/
def get_job_status (fs : FS) (job_id sheet_id : String) : Record :=
  let status := (getJob (load_status fs) job_id).getD []
  if status = [] then status else setKey status "sheet_id" (JVal.s sheet_id)

theorem getField_mergeRecord (old upd : Record) (k : String) :
    getField (mergeRecord old upd) k
      = (getField upd k).or (getField old k) := by
  rw [mergeRecord, getField, List.find?_append]
  cases h : upd.find? (fun p => p.1 = k) with
  | none => simp [getField, h, Option.or]
  | some p => simp [getField, h, Option.or]

theorem getJob_setJob (st : Store) (id id' : String) (r : Record) :
    getJob (setJob st id r) id' = if id' = id then some r else getJob st id' := by
  induction st with
  | nil =>
    by_cases h : id' = id
    · subst h
      simp [setJob, setKey, getJob]
    · rw [if_neg h]
      simp only [setJob, setKey, getJob]
      rw [List.find?_cons_of_neg _ (by simpa using fun he => h he.symm)]
  | cons p rest ih =>
    by_cases hp : p.1 = id
    · by_cases h : id' = id
      · subst h
        simp [setJob, setKey, hp, getJob]
      · rw [if_neg h]
        simp only [setJob, setKey, if_pos hp, getJob]
        rw [List.find?_cons_of_neg _ (by simpa using fun he => h he.symm),
            List.find?_cons_of_neg _ (by simpa using fun he => h ((hp.symm.trans he).symm))]
    · simp only [setJob, setKey, if_neg hp, getJob]
      by_cases hq : p.1 = id'
      · rw [List.find?_cons_of_pos _ (by simpa using hq),
            List.find?_cons_of_pos _ (by simpa using hq),
            if_neg (fun he => hp (hq.trans he))]
      · rw [List.find?_cons_of_neg _ (by simpa using hq),
            List.find?_cons_of_neg _ (by simpa using hq)]
        exact ih

theorem load_update (fs : FS) (id : String) (upd : Record) (h : fs.saveFails = false) :
    load_status (update_job_status fs id upd)
      = setJob (load_status fs) id
          (mergeRecord ((getJob (load_status fs) id).getD []) upd) ∧
    (update_job_status fs id upd).saveFails = false := by
  rw [update_job_status, save_status, h]
  simp only [Bool.false_eq_true, if_false]
  exact ⟨rfl, trivial⟩

/-- C10.  The job-store layer never lets a persistence failure escape:
`_load_status` returns the empty mapping whenever reading or parsing
the status file raises; `update_job_status` is a total function (it
never raises), and when saving fails the write is silently lost — the
filesystem state is returned unchanged — while on success the merged
record is persisted.  Persistence failures are thus invisible to every
caller of the public job API. -/
theorem C10_store_never_raises (fs : FS) (e : String) (id : String) (upd : Record) :
    (fs.readResult = .error e → load_status fs = []) ∧
    (fs.saveFails = true → update_job_status fs id upd = fs) ∧
    (fs.saveFails = false →
      (update_job_status fs id upd).readResult
        = .ok (setJob (load_status fs) id
            (mergeRecord ((getJob (load_status fs) id).getD []) upd))) := by
  refine ⟨fun h => by rw [load_status, h], fun h => ?_, fun h => ?_⟩
  · rw [update_job_status, save_status, if_pos h]
  · rw [update_job_status, save_status, h]
    simp only [Bool.false_eq_true, if_false]

/-- C10 witness: a filesystem whose read raises and whose save fails —
loading yields the empty mapping and the update call returns with the
store untouched. -/
theorem C10_store_never_raises_witness :
    ((⟨.error "parse error", true⟩ : FS).readResult = .error "parse error" →
      load_status ⟨.error "parse error", true⟩ = []) ∧
    ((⟨.error "parse error", true⟩ : FS).saveFails = true →
      update_job_status ⟨.error "parse error", true⟩ "job1" [("status", .s "running")]
        = ⟨.error "parse error", true⟩) ∧
    ((⟨.error "parse error", true⟩ : FS).saveFails = false →
      (update_job_status ⟨.error "parse error", true⟩ "job1" [("status", .s "running")]).readResult
        = .ok (setJob (load_status ⟨.error "parse error", true⟩) "job1"
            (mergeRecord ((getJob (load_status ⟨.error "parse error", true⟩) "job1").getD [])
              [("status", .s "running")]))) :=
  C10_store_never_raises ⟨.error "parse error", true⟩ "parse error" "job1"
    [("status", .s "running")]

/-- A store holding one job `"j"` already in the terminal status
`cancelled`, used to evaluate stale-update behaviour. -/
def terminal_store_fs : FS :=
  ⟨.ok [("j", [("status", JVal.s "cancelled"),
               ("timestamps", JVal.d [("cancelled", "t1")])])], false⟩

/-- The final status update a stale `_coordinate_job` issues
(batch_analysis.py lines 708-715). -/
def stale_final_update : Record :=
  [("status", JVal.s "completed"), ("processed", JVal.n 3), ("errors", JVal.n 0),
   ("timestamps", JVal.d [("completed", "t2")])]

/-- C6 counterexample.  `JobManager.update_job_status` merges the
update dict unconditionally — it never checks for a terminal status.
A job already `cancelled` (terminal) that receives the stale final
update of a background coordinator ends up `completed` with fresh
timestamps: both `status` and `timestamps` change, and the original
`cancelled` timestamp is lost (the `timestamps` sub-dict is replaced
whole, not merged). -/
theorem C6_counterexample :
    getField ((getJob (load_status
        (update_job_status terminal_store_fs "j" stale_final_update)) "j").getD []) "status"
      = some (JVal.s "completed") ∧
    getField ((getJob (load_status
        (update_job_status terminal_store_fs "j" stale_final_update)) "j").getD []) "timestamps"
      = some (JVal.d [("completed", "t2")]) ∧
    getField ((getJob (load_status terminal_store_fs) "j").getD []) "status"
      = some (JVal.s "cancelled") ∧
    getField ((getJob (load_status terminal_store_fs) "j").getD []) "timestamps"
      = some (JVal.d [("cancelled", "t1")]) := by
  refine ⟨by decide, by decide, by decide, by decide⟩

/-- C6.  Amended frame property: a Job Store update leaves a record's
`status` and `timestamps` unchanged exactly when the update dict does
not itself name those keys; updates that do name them (as every
status-bearing update from stale background work does) overwrite them
unconditionally, terminal or not. -/
theorem C6_terminal_update_amended (fs : FS) (job_id : String) (upd : Record)
    (hs : fs.saveFails = false)
    (h1 : getField upd "status" = none) (h2 : getField upd "timestamps" = none) :
    getField ((getJob (load_status (update_job_status fs job_id upd)) job_id).getD []) "status"
      = getField ((getJob (load_status fs) job_id).getD []) "status" ∧
    getField ((getJob (load_status (update_job_status fs job_id upd)) job_id).getD [])
        "timestamps"
      = getField ((getJob (load_status fs) job_id).getD []) "timestamps" := by
  obtain ⟨hl, _⟩ := load_update fs job_id upd hs
  rw [hl, getJob_setJob, if_pos rfl]
  constructor <;>
    simp [getField_mergeRecord, h1, h2, Option.or]

/-- C6 witness: an update that only bumps `processed` leaves `status`
and `timestamps` of the stored record untouched. -/
theorem C6_terminal_update_amended_witness :
    getField ((getJob (load_status (update_job_status terminal_store_fs "j"
        [("processed", JVal.n 2)])) "j").getD []) "status"
      = getField ((getJob (load_status terminal_store_fs) "j").getD []) "status" ∧
    getField ((getJob (load_status (update_job_status terminal_store_fs "j"
        [("processed", JVal.n 2)])) "j").getD []) "timestamps"
      = getField ((getJob (load_status terminal_store_fs) "j").getD []) "timestamps" :=
  C6_terminal_update_amended terminal_store_fs "j" [("processed", JVal.n 2)]
    (by decide) (by decide) (by decide)

/-! ## Job start: `BatchProcessor.start_analysis` (lines 392-510) -/

inductive AnalysisType where
  | summarize
  | sentiment
  | interpret
  | custom
deriving DecidableEq

/-- `self.templates.get(analysis_type)`: the dict of lines 201-223 has
no entry for `CUSTOM`. -/
def templates : AnalysisType → Option Template
  | .summarize => some summarize_template
  | .sentiment => some sentiment_template
  | .interpret => some interpret_template
  | .custom => none

structure Column where
  title : String
  id : Nat
deriving DecidableEq

structure Cell where
  column_id : Nat
  value : Option String
deriving DecidableEq

structure SRow where
  id : String
  cells : List Cell
deriving DecidableEq

/-- The sheet returned by `smartsheet_client.Sheets.get_sheet` (an
external collaborator), as consumed by `start_analysis`. -/
structure Sheet where
  columns : List Column
  rows : List SRow
deriving DecidableEq

/-- The validation loop of lines 405-407: `for col in source_columns +
[target_column]: if col not in column_map: raise ValueError(...)` —
the first requested column missing from the sheet's title map, if any. -/
def first_missing_column (sheet : Sheet) (cols : List String) : Option String :=
  cols.find? (fun col => ! sheet.columns.any (fun c => c.title = col))

/-- Lines 409-411: `if not row_ids: row_ids = self._get_all_row_ids(sheet)`
(Python truthiness: both `None` and `[]` resolve to all sheet rows). -/
def resolved_row_ids (sheet : Sheet) (row_ids : Option (List String)) : List String :=
  match row_ids with
  | none => sheet.rows.map (fun r => r.id)
  | some l => if l = [] then sheet.rows.map (fun r => r.id) else l

/-- The dict returned by `start_analysis` on success (lines 495-501). -/
structure StartResponse where
  jobId : String
  analysisType : AnalysisType
  status : String
  message : String
  timestamp : String
deriving DecidableEq

/-- `BatchProcessor.start_analysis`: validate columns (outside the
`try`, so a failure there touches nothing), resolve row ids, resolve
the template (`optimize` is the `_generate_optimized_prompt` oracle
for custom goals; Python truthiness for `custom_goal`), write the
initial job record — with status `"running"` (line 428) — then build
the per-row data (a requested row id absent from the sheet raises
`StopIteration` inside the `try`, which the `except` turns into a
`failed` record), hand the job to the background executor (no job-store
effect) and return the response dict, which reports status `"queued"`
(line 498).  First component: the returned/raised value; second: the
resulting job-store state. -/
def start_analysis (fs : FS) (sheet : Sheet) (analysis_type : AnalysisType)
    (source_columns : List String) (target_column : String)
    (row_ids : Option (List String))
    (optimize : String → Except String Template)
    (custom_goal : Option String) (job_id : String) (now : String) :
    Except String StartResponse × FS :=
  match first_missing_column sheet (source_columns ++ [target_column]) with
  | some col => (.error ("Column not found: " ++ col), fs)
  | none =>
    let rids := resolved_row_ids sheet row_ids
    let templ : Except String Template :=
      if analysis_type = .custom then
        match custom_goal with
        | none => .error "Custom goal is required for custom analysis type"
        | some g =>
          if g = "" then .error "Custom goal is required for custom analysis type"
          else optimize g
      else
        match templates analysis_type with
        | some t => .ok t
        | none => .error "Template not found for analysis type"
    match templ with
    | .error e =>
      (.error ("Failed to start analysis job: " ++ e),
       update_job_status fs job_id
         [("status", JVal.s "failed"), ("error", JVal.s e), ("timestamp", JVal.s now)])
    | .ok _ =>
      let fs1 := update_job_status fs job_id
        [("status", JVal.s "running"), ("total_rows", JVal.n rids.length),
         ("processed", JVal.n 0), ("failed", JVal.n 0),
         ("timestamps", JVal.d [("created", now), ("updated", now)])]
      if rids.all (fun rid => sheet.rows.any (fun r => r.id = rid)) then
        (.ok { jobId := job_id, analysisType := analysis_type, status := "queued",
               message := "Job started", timestamp := now }, fs1)
      else
        (.error "Failed to start analysis job: StopIteration",
         update_job_status fs1 job_id
           [("status", JVal.s "failed"), ("error", JVal.s "StopIteration"),
            ("timestamp", JVal.s now)])

/-- C8.  Confirmed: a start request naming a source or target column
absent from the sheet's schema fails synchronously with an error naming
the (first) missing column, that column really is requested and really
is missing, and the Job Store is returned exactly as it was — no job
record is created. -/
theorem C8_unknown_column_rejected (fs : FS) (sheet : Sheet)
    (analysis_type : AnalysisType) (source_columns : List String)
    (target_column : String) (row_ids : Option (List String))
    (optimize : String → Except String Template) (custom_goal : Option String)
    (job_id now col : String)
    (h : first_missing_column sheet (source_columns ++ [target_column]) = some col) :
    start_analysis fs sheet analysis_type source_columns target_column row_ids optimize
        custom_goal job_id now
      = (.error ("Column not found: " ++ col), fs) ∧
    col ∈ source_columns ++ [target_column] ∧
    ∀ c ∈ sheet.columns, c.title ≠ col := by
  refine ⟨by simp only [start_analysis, h], List.mem_of_find?_eq_some h, ?_⟩
  have := List.find?_some h
  intro c hc hti
  rw [Bool.not_eq_eq_eq_not, Bool.not_true, List.any_eq_false] at this
  exact absurd (by simpa using hti) (by simpa using this c hc)

/-- C8 witness: requesting target column `"T"` on a sheet that only has
column `"A"` is rejected naming `"T"`, with the store untouched. -/
theorem C8_unknown_column_rejected_witness :
    start_analysis ⟨.ok [], false⟩ ⟨[⟨"A", 1⟩], [⟨"r1", [⟨1, some "x"⟩]⟩]⟩ .summarize
        ["A"] "T" none (fun _ => .error "no") none "job1" "t0"
      = (.error ("Column not found: " ++ "T"), ⟨.ok [], false⟩) ∧
    "T" ∈ ["A"] ++ ["T"] ∧
    ∀ c ∈ [(⟨"A", 1⟩ : Column)], c.title ≠ "T" :=
  C8_unknown_column_rejected ⟨.ok [], false⟩ ⟨[⟨"A", 1⟩], [⟨"r1", [⟨1, some "x"⟩]⟩]⟩
    .summarize ["A"] "T" none (fun _ => .error "no") none "job1" "t0" "T" (by decide)

/-- A one-row sheet with a source column `"A"` and target `"T"`. -/
def c5_sheet : Sheet := ⟨[⟨"A", 1⟩, ⟨"T", 2⟩], [⟨"r1", [⟨1, some "x"⟩]⟩]⟩

/-- C5 counterexample.  A successfully accepted start request never
persists a `queued` record: the very first write of `start_analysis`
(line 428) stores status `"running"` — only the in-memory response dict
(line 498) claims `"queued"`.  The persisted record therefore does not
follow `queued → running`. -/
theorem C5_counterexample :
    Except.map (fun r => r.status)
        (start_analysis ⟨.ok [], false⟩ c5_sheet .summarize ["A"] "T" none
          (fun _ => .error "no") none "job1" "t0").1
      = .ok "queued" ∧
    getField ((getJob (load_status
        (start_analysis ⟨.ok [], false⟩ c5_sheet .summarize ["A"] "T" none
          (fun _ => .error "no") none "job1" "t0").2) "job1").getD []) "status"
      = some (JVal.s "running") := by
  refine ⟨by decide, by decide⟩

/-- C5.  Amended creation/transition property: every successfully
accepted start request persists the job record directly with status
`"running"` (never `"queued"`; the synchronous response alone reports
`"queued"`), records `total_rows` as the resolved row count with
`processed = failed = 0`, and sets the `created`/`updated` timestamps. -/
theorem C5_start_amended (fs : FS) (sheet : Sheet) (analysis_type : AnalysisType)
    (source_columns : List String) (target_column : String)
    (row_ids : Option (List String)) (optimize : String → Except String Template)
    (custom_goal : Option String) (job_id now : String) (t : Template)
    (hs : fs.saveFails = false)
    (hcols : first_missing_column sheet (source_columns ++ [target_column]) = none)
    (ht : templates analysis_type = some t)
    (hrows : (resolved_row_ids sheet row_ids).all
        (fun rid => sheet.rows.any (fun r => r.id = rid)) = true) :
    Except.map (fun r => r.status)
        (start_analysis fs sheet analysis_type source_columns target_column row_ids
          optimize custom_goal job_id now).1
      = .ok "queued" ∧
    getField ((getJob (load_status
        (start_analysis fs sheet analysis_type source_columns target_column row_ids
          optimize custom_goal job_id now).2) job_id).getD []) "status"
      = some (JVal.s "running") ∧
    getField ((getJob (load_status
        (start_analysis fs sheet analysis_type source_columns target_column row_ids
          optimize custom_goal job_id now).2) job_id).getD []) "total_rows"
      = some (JVal.n (resolved_row_ids sheet row_ids).length) := by
  have hnotcustom : ¬ analysis_type = .custom := by
    intro hc
    rw [hc] at ht
    simp [templates] at ht
  simp only [start_analysis, hcols, if_neg hnotcustom, ht, hrows, if_true]
  refine ⟨rfl, ?_, ?_⟩ <;>
  · obtain ⟨hl, _⟩ := load_update fs job_id _ hs
    rw [hl, getJob_setJob, if_pos rfl]
    simp [getField_mergeRecord, getField, List.find?]

/-- C5 witness: the amended property evaluated on the concrete one-row
sheet. -/
theorem C5_start_amended_witness :
    Except.map (fun r => r.status)
        (start_analysis ⟨.ok [], false⟩ c5_sheet .summarize ["A"] "T" none
          (fun _ => .error "no") none "job1" "t0").1
      = .ok "queued" ∧
    getField ((getJob (load_status
        (start_analysis ⟨.ok [], false⟩ c5_sheet .summarize ["A"] "T" none
          (fun _ => .error "no") none "job1" "t0").2) "job1").getD []) "status"
      = some (JVal.s "running") ∧
    getField ((getJob (load_status
        (start_analysis ⟨.ok [], false⟩ c5_sheet .summarize ["A"] "T" none
          (fun _ => .error "no") none "job1" "t0").2) "job1").getD []) "total_rows"
      = some (JVal.n (resolved_row_ids c5_sheet none).length) :=
  C5_start_amended ⟨.ok [], false⟩ c5_sheet .summarize ["A"] "T" none
    (fun _ => .error "no") none "job1" "t0" summarize_template
    rfl (by decide) rfl (by decide)

/-! ## Cancellation: `JobManager.cancel_job`, `BatchProcessor.cancel_analysis` -/

/-- The in-memory `JobManager.active_processes` table: job id mapped to
whether the stored future is already done (`future.done()`). -/
abbrev ActiveTable := List (String × Bool)

/-- `JobManager.cancel_job` (lines 108-118): if an execution handle
exists for the id, cancel the future if not done, pop the handle, and
unconditionally persist status `"cancelled"` (with the flat
`"timestamp"` key the source writes there); with no handle it does
nothing, silently.  The persisted record's current status is never
consulted and no error is ever raised. -/
def cancel_job (fs : FS) (active : ActiveTable) (job_id now : String) :
    FS × ActiveTable :=
  if (active.find? (fun p => p.1 = job_id)).isSome then
    (update_job_status fs job_id
       [("status", JVal.s "cancelled"), ("timestamp", JVal.s now)],
     active.filter (fun p => p.1 ≠ job_id))
  else (fs, active)

/-- The dict `BatchProcessor.cancel_analysis` returns (lines 771-776). -/
structure CancelResponse where
  jobId : String
  status : String
  message : String
  timestamp : String
deriving DecidableEq

/-- `BatchProcessor.cancel_analysis` (lines 768-776): delegate to
`cancel_job`, then report success unconditionally. -/
def cancel_analysis (fs : FS) (active : ActiveTable) (job_id now : String) :
    (FS × ActiveTable) × CancelResponse :=
  (cancel_job fs active job_id now,
   ⟨job_id, "cancelled", "Analysis job cancelled", now⟩)

/-- A store in which job `"j"` already completed, while its done future
is still present in `active_processes` (nothing ever removes handles of
finished jobs). -/
def completed_job_fs : FS :=
  ⟨.ok [("j", [("status", JVal.s "completed"),
               ("timestamps", JVal.d [("completed", "t1")])])], false⟩

/-- C9 counterexample.  Cancelling a job that is already in the
terminal status `completed` (its done future still registered) does not
fail with `InvalidTransitionError` — no error path exists in
`cancel_job`/`cancel_analysis` at all.  Instead the call reports
success and re-writes the terminal record to `cancelled`. -/
theorem C9_counterexample :
    getField ((getJob (load_status
        (cancel_analysis completed_job_fs [("j", true)] "j" "t2").1.1) "j").getD [])
        "status"
      = some (JVal.s "cancelled") ∧
    (cancel_analysis completed_job_fs [("j", true)] "j" "t2").2
      = ⟨"j", "cancelled", "Analysis job cancelled", "t2"⟩ ∧
    getField ((getJob (load_status completed_job_fs) "j").getD []) "status"
      = some (JVal.s "completed") := by
  refine ⟨by decide, by decide, by decide⟩

/-- C9.  Amended cancellation contract: when an execution handle for
the job id exists, `cancel_job` persists status `"cancelled"`
regardless of the record's current status (terminal included) and
removes the handle; when no handle exists it silently leaves both the
store and the handle table unchanged; and `cancel_analysis` always
returns the success dict — `InvalidTransitionError` is never raised in
either case. -/
theorem C9_cancel_amended (fs : FS) (active : ActiveTable) (job_id now : String)
    (hs : fs.saveFails = false) :
    ((active.find? (fun p => p.1 = job_id)).isSome = true →
      getField ((getJob (load_status (cancel_job fs active job_id now).1) job_id).getD [])
          "status"
        = some (JVal.s "cancelled") ∧
      ((cancel_job fs active job_id now).2.find? (fun p => p.1 = job_id)) = none) ∧
    ((active.find? (fun p => p.1 = job_id)).isSome = false →
      cancel_job fs active job_id now = (fs, active)) ∧
    (cancel_analysis fs active job_id now).2
      = ⟨job_id, "cancelled", "Analysis job cancelled", now⟩ := by
  refine ⟨fun h => ?_, fun h => ?_, rfl⟩
  · rw [cancel_job, if_pos h]
    constructor
    · obtain ⟨hl, _⟩ := load_update fs job_id
        [("status", JVal.s "cancelled"), ("timestamp", JVal.s now)] hs
      rw [hl, getJob_setJob, if_pos rfl]
      simp [getField_mergeRecord, getField, List.find?]
    · rw [List.find?_eq_none]
      intro p hp
      have h2 := (List.mem_filter.mp hp).2
      simp only [decide_eq_true_eq] at h2
      simpa using h2
  · rw [cancel_job, if_neg (by rw [h]; exact Bool.false_ne_true)]

/-- C9 witness: cancelling the completed job `"j"` whose handle is
present — the record becomes `cancelled`, the handle is gone, and the
response reports success. -/
theorem C9_cancel_amended_witness :
    (([("j", true)] : ActiveTable).find? (fun p => p.1 = "j")).isSome = true ∧
    (getField ((getJob (load_status
        (cancel_job completed_job_fs [("j", true)] "j" "t2").1) "j").getD []) "status"
      = some (JVal.s "cancelled") ∧
    ((cancel_job completed_job_fs [("j", true)] "j" "t2").2.find?
        (fun p => p.1 = "j")) = none) ∧
    (cancel_analysis completed_job_fs [("j", true)] "j" "t2").2
      = ⟨"j", "cancelled", "Analysis job cancelled", "t2"⟩ :=
  ⟨by decide,
   (C9_cancel_amended completed_job_fs [("j", true)] "j" "t2" rfl).1 (by decide),
   (C9_cancel_amended completed_job_fs [("j", true)] "j" "t2" rfl).2.2⟩

/-! ## Restart recovery: `_recover_interrupted_jobs` and process startup -/

/-- The failure update `_recover_interrupted_jobs` writes for each
`running` job (lines 521-527): note it replaces the whole `timestamps`
sub-dict with only the `failed` entry. -/
def interrupted_update (now : String) : Record :=
  [("status", JVal.s "failed"),
   ("error", JVal.s "Job interrupted by server restart"),
   ("timestamps", JVal.d [("failed", now)])]

/-- One iteration of the loop in `_recover_interrupted_jobs`. -/
def recover_step (now : String) (fs' : FS) (p : String × Record) : FS :=
  if getField p.2 "status" = some (JVal.s "running")
  then update_job_status fs' p.1 (interrupted_update now)
  else fs'

/-- `BatchProcessor._recover_interrupted_jobs` (lines 512-532): load
the status snapshot once, then persist the interruption failure for
every job found `running`. -/
def recover_interrupted_jobs (fs : FS) (now : String) : FS :=
  (load_status fs).foldl (recover_step now) fs

/-- Process startup as it affects the job store: module import
(batch_analysis.py lines 50-53) creates an empty `status.json` only
when none exists, and `BatchProcessor.__init__` (lines 173-223) — run
by the module-level `processor = BatchProcessor()` (line 786) — never
touches the job store.  In particular, nothing in the repository ever
calls `_recover_interrupted_jobs` (or `_process_queue`): both are
defined but have no call site in any source file. -/
def process_startup (fs : FS) (fileExists : Bool) : FS :=
  if fileExists then fs else { fs with readResult := .ok [] }

/-- A store persisted with job `"j"` in status `running`, as left
behind by a process that died mid-job. -/
def running_job_fs : FS :=
  ⟨.ok [("j", [("status", JVal.s "running"),
               ("timestamps", JVal.d [("created", "t0")])])], false⟩

/-- C7 counterexample.  After process startup the job persisted as
`running` is still `running` and `get_job_status` reports `running`,
not `failed`: the recovery routine exists in the source but no code
path invokes it, so startup leaves the job store untouched. -/
theorem C7_counterexample :
    process_startup running_job_fs true = running_job_fs ∧
    getField (get_job_status running_job_fs "j" "sheet1") "status"
      = some (JVal.s "running") ∧
    getField (get_job_status running_job_fs "j" "sheet1") "status"
      ≠ some (JVal.s "failed") := by
  refine ⟨by decide, by decide, by decide⟩

theorem recover_fold_frame (now : String) (id : String) :
    ∀ (L : List (String × Record)) (fs0 : FS), fs0.saveFails = false →
      id ∉ L.map Prod.fst →
      getJob (load_status (L.foldl (recover_step now) fs0)) id
          = getJob (load_status fs0) id ∧
      (L.foldl (recover_step now) fs0).saveFails = false := by
  intro L
  induction L with
  | nil => intro fs0 hs _; exact ⟨rfl, hs⟩
  | cons p rest ih =>
    intro fs0 hs hid
    have hidp : id ≠ p.1 := by
      intro he
      exact hid (by simp [he])
    have hidrest : id ∉ rest.map Prod.fst := fun hm => hid (by simp [hm])
    rw [List.foldl_cons]
    by_cases hr : getField p.2 "status" = some (JVal.s "running")
    · have hstep : recover_step now fs0 p
          = update_job_status fs0 p.1 (interrupted_update now) := by
        rw [recover_step, if_pos hr]
      obtain ⟨hl, hsf⟩ := load_update fs0 p.1 (interrupted_update now) hs
      obtain ⟨ha, hb⟩ := ih (recover_step now fs0 p) (by rw [hstep]; exact hsf) hidrest
      refine ⟨?_, hb⟩
      rw [ha, hstep, hl, getJob_setJob, if_neg hidp]
    · have hstep : recover_step now fs0 p = fs0 := by
        rw [recover_step, if_neg hr]
      obtain ⟨ha, hb⟩ := ih (recover_step now fs0 p) (by rw [hstep]; exact hs) hidrest
      refine ⟨?_, hb⟩
      rw [ha, hstep]

theorem recover_fold_marks (now : String) :
    ∀ (L : List (String × Record)) (fs0 : FS), fs0.saveFails = false →
      (L.map Prod.fst).Nodup →
      ∀ id r, (id, r) ∈ L →
        getField r "status" = some (JVal.s "running") →
        getField ((getJob (load_status (L.foldl (recover_step now) fs0)) id).getD [])
            "status"
          = some (JVal.s "failed") ∧
        getField ((getJob (load_status (L.foldl (recover_step now) fs0)) id).getD [])
            "error"
          = some (JVal.s "Job interrupted by server restart") := by
  intro L
  induction L with
  | nil => intro fs0 _ _ id r hm; exact absurd hm (List.not_mem_nil _)
  | cons p rest ih =>
    intro fs0 hs hnd id r hm hrun
    rw [List.map_cons, List.nodup_cons] at hnd
    rcases List.mem_cons.mp hm with he | hrest
    · subst he
      have hstep : recover_step now fs0 (id, r)
          = update_job_status fs0 id (interrupted_update now) := by
        rw [recover_step, if_pos hrun]
      obtain ⟨hl, hsf⟩ := load_update fs0 id (interrupted_update now) hs
      have hnotin : id ∉ rest.map Prod.fst := hnd.1
      rw [List.foldl_cons]
      obtain ⟨ha, _⟩ := recover_fold_frame now id rest (recover_step now fs0 (id, r))
        (by rw [hstep]; exact hsf) hnotin
      rw [ha, hstep, hl, getJob_setJob, if_pos rfl]
      constructor <;>
        simp [getField_mergeRecord, interrupted_update, getField, List.find?]
    · rw [List.foldl_cons]
      have hsf' : (recover_step now fs0 p).saveFails = false := by
        rw [recover_step]
        split
        · exact (load_update fs0 p.1 (interrupted_update now) hs).2
        · exact hs
      exact ih (recover_step now fs0 p) hsf' hnd.2 id r hrest hrun

/-- C7.  Amended restart-recovery property: the repository's
`_recover_interrupted_jobs`, when invoked, deterministically
transitions every job persisted as `running` to `failed` with the error
"Job interrupted by server restart" — but nothing in the repository
invokes it: process startup (module import plus `BatchProcessor()`
construction) leaves the job store untouched, so after a restart a job
persisted as `running` is still reported `running` by `get_status`
(see the counterexample), and it is also not resumed, since no code
re-reads pending jobs either. -/
theorem C7_recover_amended (fs : FS) (now : String)
    (hs : fs.saveFails = false)
    (hnd : ((load_status fs).map Prod.fst).Nodup) :
    (∀ fileExists, process_startup fs fileExists
        = if fileExists then fs else { fs with readResult := .ok [] }) ∧
    ∀ id r, (id, r) ∈ load_status fs →
      getField r "status" = some (JVal.s "running") →
      getField ((getJob (load_status (recover_interrupted_jobs fs now)) id).getD [])
          "status"
        = some (JVal.s "failed") ∧
      getField ((getJob (load_status (recover_interrupted_jobs fs now)) id).getD [])
          "error"
        = some (JVal.s "Job interrupted by server restart") := by
  refine ⟨fun _ => rfl, ?_⟩
  intro id r hm hrun
  exact recover_fold_marks now (load_status fs) fs hs hnd id r hm hrun

/-- C7 witness: invoking the recovery routine on the store holding the
`running` job `"j"` marks it `failed` with the interruption error. -/
theorem C7_recover_amended_witness :
    (∀ fileExists, process_startup running_job_fs fileExists
        = if fileExists then running_job_fs
          else { running_job_fs with readResult := .ok [] }) ∧
    ∀ id r, (id, r) ∈ load_status running_job_fs →
      getField r "status" = some (JVal.s "running") →
      getField ((getJob (load_status (recover_interrupted_jobs running_job_fs "t9")) id).getD [])
          "status"
        = some (JVal.s "failed") ∧
      getField ((getJob (load_status (recover_interrupted_jobs running_job_fs "t9")) id).getD [])
          "error"
        = some (JVal.s "Job interrupted by server restart") :=
  C7_recover_amended running_job_fs "t9" rfl (by decide)

/-! ## Worker/coordinator pipeline: `_process_batch` (worker variant,
lines 551-614) and `_coordinate_job` (lines 616-725) -/

/-- `row_ids[i:i + batch_size]` slicing loop of lines 627-628, with
fuel for structural recursion (fuel = list length suffices for any
positive batch size; Python raises for step 0). -/
def make_batches_go : Nat → Nat → List String → List (List String)
  | 0, _, _ => []
  | _, _, [] => []
  | fuel + 1, bs, x :: xs => (x :: xs).take bs :: make_batches_go fuel bs ((x :: xs).drop bs)

def make_batches (bs : Nat) (xs : List String) : List (List String) :=
  make_batches_go xs.length bs xs

/-- One entry of `result_queue` (lines 590-602): a success carrying the
row's completion result, or a per-row failure carrying the message. -/
inductive RowOutcome where
  | ok (row_id result : String)
  | err (row_id error_msg : String)
deriving DecidableEq

/-- One entry of `status_queue`: a per-row `progress` item (lines
604-608, pushed after every row, success or failure) or a
`worker_error` item (lines 610-614, pushed when the worker's client
initialization raises before any row is processed). -/
inductive StatusEvent where
  | progress
  | worker_error
deriving DecidableEq

/-- What one worker running `_process_batch` pushes onto the two
queues, given the per-row completion oracle `rowResult` and whether the
worker's client initialization succeeded. -/
def worker_batch (rowResult : String → Except String String) (initOk : Bool)
    (batch : List String) : List RowOutcome × List StatusEvent :=
  if initOk then
    (batch.map (fun rid =>
        match rowResult rid with
        | .ok res => RowOutcome.ok rid res
        | .error e => RowOutcome.err rid e),
     batch.map (fun _ => StatusEvent.progress))
  else ([], [StatusEvent.worker_error])

/-- The `result_queue` contents after all workers have finished
(workers are joined before draining), batches in submission order;
`initOk i` tells whether batch `i`'s worker initialized. -/
def results_from (rowResult : String → Except String String) (initOk : Nat → Bool) :
    Nat → List (List String) → List RowOutcome
  | _, [] => []
  | i, b :: rest =>
    (worker_batch rowResult (initOk i) b).1 ++ results_from rowResult initOk (i + 1) rest

/-- The `status_queue` contents, likewise. -/
def events_from (rowResult : String → Except String String) (initOk : Nat → Bool) :
    Nat → List (List String) → List StatusEvent
  | _, [] => []
  | i, b :: rest =>
    (worker_batch rowResult (initOk i) b).2 ++ events_from rowResult initOk (i + 1) rest

/-- The coordinator's local state (lines 637-640): `pending_updates`,
`processed_count`, `error_count`, plus the rows submitted in successful
`update_rows` calls and the number of `update_rows` calls made so far
(the index into the write-outcome oracle). -/
structure CoordState where
  pending : List (String × String)
  processed : Nat
  errors : Nat
  written : List (String × String)
  writeCalls : Nat
deriving DecidableEq

/-- Handling one `result_queue` item (lines 653-675): a success is
appended to `pending_updates`; at 10 pending the batch is written —
on write failure `error_count += len(pending)` — and pending is
cleared; a per-row error item is silently dropped (the source has no
`else` branch, so it is neither counted nor recorded). -/
def handle_result (writeOk : Nat → Bool) (st : CoordState) : RowOutcome → CoordState
  | .ok rid res =>
    let pending := st.pending ++ [(rid, res)]
    if 10 ≤ pending.length then
      if writeOk st.writeCalls then
        { st with pending := [], written := st.written ++ pending,
                  writeCalls := st.writeCalls + 1 }
      else
        { st with pending := [], errors := st.errors + pending.length,
                  writeCalls := st.writeCalls + 1 }
    else { st with pending := pending }
  | .err _ _ => st

/-- Handling one `status_queue` item (lines 678-683). -/
def handle_status (st : CoordState) : StatusEvent → CoordState
  | .progress => { st with processed := st.processed + 1 }
  | .worker_error => { st with errors := st.errors + 1 }

/-- The job-store update issued after each status item (lines 686-692):
note it writes the failure counter under the key `"errors"` — the
`"failed"` field set at job start is never updated — and replaces
`timestamps` with only `updated`. -/
def progress_update (now : String) (st : CoordState) : Record :=
  [("processed", JVal.n st.processed), ("errors", JVal.n st.errors),
   ("timestamps", JVal.d [("updated", now)])]

/-- The status drain (lines 678-692): process every status item, and
after each one persist a progress update. -/
def status_updates (now : String) : CoordState → List StatusEvent → CoordState × List Record
  | st, [] => (st, [])
  | st, e :: rest =>
    let st' := handle_status st e
    let out := status_updates now st' rest
    (out.1, progress_update now st' :: out.2)

/-- The final flush of `pending_updates` (lines 697-705): one more
`update_rows` call when pending is non-empty; a failure adds
`len(pending)` to `error_count` (the rows were already counted as
processed). -/
def final_flush (writeOk : Nat → Bool) (st : CoordState) : CoordState :=
  if st.pending = [] then st
  else if writeOk st.writeCalls then
    { st with written := st.written ++ st.pending, writeCalls := st.writeCalls + 1 }
  else { st with errors := st.errors + st.pending.length, writeCalls := st.writeCalls + 1 }

/-- The terminal update of lines 708-715: always `completed`, with the
final counters, replacing `timestamps` with only `completed`. -/
def final_update (now : String) (st : CoordState) : Record :=
  [("status", JVal.s "completed"), ("processed", JVal.n st.processed),
   ("errors", JVal.n st.errors), ("timestamps", JVal.d [("completed", now)])]

/-- `BatchProcessor._coordinate_job`: split the rows into batches, run
the workers (all joined before draining), drain `result_queue` fully,
then — only if at least one result item arrived, since the outer
`while not result_queue.empty()` loop is skipped otherwise — drain
`status_queue` persisting a progress update per item, flush the
remaining pending writes, and persist the `completed` terminal update.
Returns the resulting job store, the list of updates issued (in
order), and the final coordinator state. -/
def coordinate_job (rowResult : String → Except String String)
    (initOk writeOk : Nat → Bool) (batch_size : Nat) (row_ids : List String)
    (job_id now : String) (fs : FS) : FS × List Record × CoordState :=
  let batches := make_batches batch_size row_ids
  let results := results_from rowResult initOk 0 batches
  let events := events_from rowResult initOk 0 batches
  let st1 := results.foldl (handle_result writeOk) ⟨[], 0, 0, [], 0⟩
  let out := if results.isEmpty then (st1, []) else status_updates now st1 events
  let st3 := final_flush writeOk out.1
  let allUpdates := out.2 ++ [final_update now st3]
  (allUpdates.foldl (fun f u => update_job_status f job_id u) fs, allUpdates, st3)

/-- The rows a fully successful run writes back: the successes of the
per-row oracle, in row order. -/
def successes (rowResult : String → Except String String) (rows : List String) :
    List (String × String) :=
  rows.filterMap (fun rid =>
    match rowResult rid with
    | .ok res => some (rid, res)
    | .error _ => none)

/-- Numeric field accessor for persisted records (0 when absent). -/
def numField (u : Record) (k : String) : Nat :=
  match getField u k with
  | some (JVal.n m) => m
  | _ => 0

/-- `processed + errors` of one persisted update. -/
def usum (u : Record) : Nat := numField u "processed" + numField u "errors"

theorem make_batches_go_flatten (bs : Nat) (hbs : 0 < bs) :
    ∀ (fuel : Nat) (xs : List String), xs.length ≤ fuel →
      (make_batches_go fuel bs xs).flatten = xs := by
  intro fuel
  induction fuel with
  | zero =>
    intro xs h
    cases xs with
    | nil => rfl
    | cons x r => simp at h
  | succ n ih =>
    intro xs h
    cases xs with
    | nil => rfl
    | cons x r =>
      rw [make_batches_go]
      simp only [List.flatten_cons]
      have hlen : ((x :: r).drop bs).length ≤ n := by
        simp only [List.length_drop, List.length_cons]
        simp only [List.length_cons] at h
        omega
      rw [ih ((x :: r).drop bs) hlen, List.take_append_drop]

theorem make_batches_flatten (bs : Nat) (hbs : 0 < bs) (xs : List String) :
    (make_batches bs xs).flatten = xs :=
  make_batches_go_flatten bs hbs xs.length xs le_rfl

/-- The result item one row produces (lines 564-602). -/
def outcome_of (rowResult : String → Except String String) (rid : String) : RowOutcome :=
  match rowResult rid with
  | .ok res => RowOutcome.ok rid res
  | .error e => RowOutcome.err rid e

theorem results_from_all_ok (rowResult : String → Except String String)
    (initOk : Nat → Bool) (hio : ∀ i, initOk i = true) :
    ∀ (batches : List (List String)) (i : Nat),
      results_from rowResult initOk i batches
        = batches.flatten.map (outcome_of rowResult) := by
  intro batches
  induction batches with
  | nil => intro i; rfl
  | cons b rest ih =>
    intro i
    rw [results_from, hio i, worker_batch]
    simp only [if_true, List.flatten_cons, List.map_append, ih (i + 1)]
    rfl

theorem events_from_all_ok (rowResult : String → Except String String)
    (initOk : Nat → Bool) (hio : ∀ i, initOk i = true) :
    ∀ (batches : List (List String)) (i : Nat),
      events_from rowResult initOk i batches
        = batches.flatten.map (fun _ => StatusEvent.progress) := by
  intro batches
  induction batches with
  | nil => intro i; rfl
  | cons b rest ih =>
    intro i
    rw [events_from, hio i, worker_batch]
    simp only [if_true, List.flatten_cons, List.map_append, ih (i + 1)]

/-- The successful rows among a list of result items, in order. -/
def successes_of (rs : List RowOutcome) : List (String × String) :=
  rs.filterMap (fun o =>
    match o with
    | RowOutcome.ok rid res => some (rid, res)
    | RowOutcome.err _ _ => none)

theorem successes_map (rowResult : String → Except String String) (rows : List String) :
    successes_of (rows.map (outcome_of rowResult)) = successes rowResult rows := by
  rw [successes_of, successes, List.filterMap_map]
  congr 1
  funext rid
  rw [Function.comp, outcome_of]
  cases rowResult rid <;> rfl

theorem handle_result_fold_ok (writeOk : Nat → Bool) (hw : ∀ k, writeOk k = true) :
    ∀ (rs : List RowOutcome) (st : CoordState),
      (rs.foldl (handle_result writeOk) st).processed = st.processed ∧
      (rs.foldl (handle_result writeOk) st).errors = st.errors ∧
      (rs.foldl (handle_result writeOk) st).written
          ++ (rs.foldl (handle_result writeOk) st).pending
        = st.written ++ st.pending ++ successes_of rs := by
  intro rs
  induction rs with
  | nil => intro st; simp [successes_of]
  | cons o rest ih =>
    intro st
    cases o with
    | ok rid res =>
      rw [List.foldl_cons]
      have hsucc : successes_of (RowOutcome.ok rid res :: rest)
          = (rid, res) :: successes_of rest := rfl
      rw [handle_result]
      by_cases hlen : 10 ≤ (st.pending ++ [(rid, res)]).length
      · rw [if_pos hlen, if_pos (hw st.writeCalls)]
        obtain ⟨h1, h2, h3⟩ := ih
          { st with pending := [], written := st.written ++ (st.pending ++ [(rid, res)]),
                    writeCalls := st.writeCalls + 1 }
        refine ⟨h1, h2, ?_⟩
        rw [h3, hsucc]
        simp [List.append_assoc]
      · rw [if_neg hlen]
        obtain ⟨h1, h2, h3⟩ := ih { st with pending := st.pending ++ [(rid, res)] }
        refine ⟨h1, h2, ?_⟩
        rw [h3, hsucc]
        simp [List.append_assoc]
    | err rid e =>
      rw [List.foldl_cons]
      have hsucc : successes_of (RowOutcome.err rid e :: rest) = successes_of rest := rfl
      rw [handle_result, hsucc]
      exact ih st

theorem status_updates_all_progress (now : String) :
    ∀ (es : List StatusEvent) (st : CoordState),
      (∀ e ∈ es, e = StatusEvent.progress) →
      (status_updates now st es).1
        = { st with processed := st.processed + es.length } := by
  intro es
  induction es with
  | nil => intro st _; simp [status_updates]
  | cons e rest ih =>
    intro st hall
    have he : e = StatusEvent.progress := hall e (by simp)
    subst he
    simp only [status_updates, handle_status]
    rw [ih { st with processed := st.processed + 1 } (fun x hx => hall x (by simp [hx]))]
    have harith : st.processed + 1 + rest.length = st.processed + (rest.length + 1) := by
      omega
    simp [List.length_cons, harith]

theorem final_flush_ok (writeOk : Nat → Bool) (hw : ∀ k, writeOk k = true)
    (st : CoordState) :
    (final_flush writeOk st).processed = st.processed ∧
    (final_flush writeOk st).errors = st.errors ∧
    (final_flush writeOk st).written = st.written ++ st.pending := by
  rw [final_flush]
  by_cases hp : st.pending = []
  · rw [if_pos hp, hp]
    simp
  · rw [if_neg hp, if_pos (hw st.writeCalls)]
    simp

theorem fold_updates_saveFails (job_id : String) :
    ∀ (us : List Record) (fs : FS), fs.saveFails = false →
      ((us.foldl (fun f u => update_job_status f job_id u) fs)).saveFails = false := by
  intro us
  induction us with
  | nil => intro fs hs; exact hs
  | cons u rest ih =>
    intro fs hs
    rw [List.foldl_cons]
    exact ih _ (load_update fs job_id u hs).2

theorem fold_updates_last (job_id : String) (us : List Record) (u : Record) (fs : FS)
    (hs : fs.saveFails = false) :
    getJob (load_status ((us ++ [u]).foldl (fun f v => update_job_status f job_id v) fs))
        job_id
      = some (mergeRecord
          ((getJob (load_status (us.foldl (fun f v => update_job_status f job_id v) fs))
            job_id).getD []) u) := by
  rw [List.foldl_append, List.foldl_cons, List.foldl_nil]
  obtain ⟨hl, _⟩ := load_update (us.foldl (fun f v => update_job_status f job_id v) fs)
    job_id u (fold_updates_saveFails job_id us fs hs)
  rw [hl, getJob_setJob, if_pos rfl]

/-- C3.  Amended partial-failure contract, for every per-row completion
oracle, positive batch size and failure-free infrastructure (workers
initialize, bulk writes succeed): the job always finishes `completed`;
the persisted `processed` counter equals the TOTAL number of rows —
failed rows included, since the worker pushes a progress item for every
row, success or not; the persisted failure counter (`errors`) stays 0 —
per-row completion failures are dropped without counting (the result
drain has no error branch); and the successful rows' results are still
written to the row source, in order. -/
theorem C3_partial_failure_amended (rowResult : String → Except String String)
    (initOk writeOk : Nat → Bool) (bs : Nat) (rows : List String)
    (job_id now : String) (fs : FS)
    (hs : fs.saveFails = false) (hbs : 0 < bs)
    (hio : ∀ i, initOk i = true) (hw : ∀ k, writeOk k = true) :
    getField ((getJob (load_status
        (coordinate_job rowResult initOk writeOk bs rows job_id now fs).1) job_id).getD [])
        "status" = some (JVal.s "completed") ∧
    getField ((getJob (load_status
        (coordinate_job rowResult initOk writeOk bs rows job_id now fs).1) job_id).getD [])
        "processed" = some (JVal.n rows.length) ∧
    getField ((getJob (load_status
        (coordinate_job rowResult initOk writeOk bs rows job_id now fs).1) job_id).getD [])
        "errors" = some (JVal.n 0) ∧
    (coordinate_job rowResult initOk writeOk bs rows job_id now fs).2.2.written
      = successes rowResult rows := by
  have hflat := make_batches_flatten bs hbs rows
  have hres : results_from rowResult initOk 0 (make_batches bs rows)
      = rows.map (outcome_of rowResult) := by
    rw [results_from_all_ok rowResult initOk hio, hflat]
  have heve : events_from rowResult initOk 0 (make_batches bs rows)
      = rows.map (fun _ => StatusEvent.progress) := by
    rw [events_from_all_ok rowResult initOk hio, hflat]
  obtain ⟨hp1, he1, hwp1⟩ := handle_result_fold_ok writeOk hw
    (rows.map (outcome_of rowResult)) ⟨[], 0, 0, [], 0⟩
  by_cases hrows : rows = []
  · subst hrows
    simp only [coordinate_job, hres, heve, List.map_nil, List.foldl_nil,
      List.isEmpty_nil, if_true, List.nil_append, List.length_nil]
    have hfl : final_flush writeOk ⟨[], 0, 0, [], 0⟩ = ⟨[], 0, 0, [], 0⟩ := rfl
    rw [hfl]
    have hlast := fold_updates_last job_id []
      (final_update now ⟨[], 0, 0, [], 0⟩) fs hs
    rw [List.nil_append] at hlast
    rw [List.foldl_nil] at hlast
    refine ⟨?_, ?_, ?_, rfl⟩ <;>
    · rw [show ([final_update now ⟨[], 0, 0, [], 0⟩].foldl
          (fun f u => update_job_status f job_id u) fs)
          = ([] ++ [final_update now ⟨[], 0, 0, [], 0⟩]).foldl
            (fun f v => update_job_status f job_id v) fs from rfl,
        fold_updates_last job_id [] (final_update now ⟨[], 0, 0, [], 0⟩) fs hs]
      simp [getField_mergeRecord, final_update, getField, List.find?, Option.or]
  · have hne : (rows.map (outcome_of rowResult)).isEmpty = false := by
      cases rows with
      | nil => exact absurd rfl hrows
      | cons a b => rfl
    simp only [coordinate_job, hres, heve, hne, Bool.false_eq_true, if_false]
    rw [status_updates_all_progress now (rows.map (fun _ => StatusEvent.progress))
      ((rows.map (outcome_of rowResult)).foldl (handle_result writeOk) ⟨[], 0, 0, [], 0⟩)
      (by
        intro e he
        rcases List.mem_map.mp he with ⟨x, _, hx⟩
        exact hx.symm)]
    set st1 := (rows.map (outcome_of rowResult)).foldl (handle_result writeOk)
      ⟨[], 0, 0, [], 0⟩ with hst1
    set st2 : CoordState :=
      { st1 with processed := st1.processed + (rows.map (fun _ => StatusEvent.progress)).length }
      with hst2
    obtain ⟨hf1, hf2, hf3⟩ := final_flush_ok writeOk hw st2
    have hst2p : st2.processed = rows.length := by
      rw [hst2]
      simp only [List.length_map]
      rw [hp1]
      simp
    have hst2e : st2.errors = 0 := by
      rw [hst2]
      simpa using he1
    have hwr : (final_flush writeOk st2).written = successes rowResult rows := by
      rw [hf3, hst2]
      simp only []
      have : st1.written ++ st1.pending = successes rowResult rows := by
        rw [hwp1]
        simpa using successes_map rowResult rows
      simpa using this
    refine ⟨?_, ?_, ?_, hwr⟩ <;>
    · rw [fold_updates_last job_id _ (final_update now (final_flush writeOk st2)) fs hs]
      simp [getField_mergeRecord, final_update, getField, List.find?, Option.or,
        hf1, hf2, hst2p, hst2e, hp1, he1]

/-- The per-row oracle of the partial-failure scenario: row `"r3"`
raises a completion error, every other row succeeds. -/
def c3_rowResult : String → Except String String :=
  fun rid => if rid = "r3" then .error "CompletionError" else .ok ("ok_" ++ rid)

/-- The job store right after `start_analysis` accepted a 5-row job. -/
def c3_start_fs : FS :=
  update_job_status ⟨.ok [], false⟩ "job1"
    [("status", JVal.s "running"), ("total_rows", JVal.n 5), ("processed", JVal.n 0),
     ("failed", JVal.n 0), ("timestamps", JVal.d [("created", "t0"), ("updated", "t0")])]

/-- C3 counterexample.  5 rows, row 3's completion call raises: the job
does end `completed` and the 4 successful rows are written, but the
persisted progress reads `processed = 5` (every row, failures
included, pushes a progress item) with the failure counters at 0
(`failed` is never updated after start and the result drain drops
error items without counting them) — not `processed = 4, failed = 1`
as claimed. -/
theorem C3_counterexample :
    c3_rowResult "r3" = .error "CompletionError" ∧
    getField ((getJob (load_status (coordinate_job c3_rowResult (fun _ => true)
        (fun _ => true) 3 ["r1", "r2", "r3", "r4", "r5"] "job1" "t1" c3_start_fs).1)
        "job1").getD []) "status" = some (JVal.s "completed") ∧
    getField ((getJob (load_status (coordinate_job c3_rowResult (fun _ => true)
        (fun _ => true) 3 ["r1", "r2", "r3", "r4", "r5"] "job1" "t1" c3_start_fs).1)
        "job1").getD []) "processed" = some (JVal.n 5) ∧
    getField ((getJob (load_status (coordinate_job c3_rowResult (fun _ => true)
        (fun _ => true) 3 ["r1", "r2", "r3", "r4", "r5"] "job1" "t1" c3_start_fs).1)
        "job1").getD []) "failed" = some (JVal.n 0) ∧
    getField ((getJob (load_status (coordinate_job c3_rowResult (fun _ => true)
        (fun _ => true) 3 ["r1", "r2", "r3", "r4", "r5"] "job1" "t1" c3_start_fs).1)
        "job1").getD []) "errors" = some (JVal.n 0) ∧
    (coordinate_job c3_rowResult (fun _ => true) (fun _ => true) 3
        ["r1", "r2", "r3", "r4", "r5"] "job1" "t1" c3_start_fs).2.2.written
      = [("r1", "ok_r1"), ("r2", "ok_r2"), ("r4", "ok_r4"), ("r5", "ok_r5")] := by
  refine ⟨by decide, by decide, by decide, by decide, by decide, by decide⟩

/-- C3 witness: the amended contract evaluated on the same 5-row
partial-failure run. -/
theorem C3_partial_failure_amended_witness :
    (⟨.ok [], false⟩ : FS).saveFails = false ∧ 0 < 3 ∧
    (getField ((getJob (load_status (coordinate_job c3_rowResult (fun _ => true)
        (fun _ => true) 3 ["r1", "r2", "r3", "r4", "r5"] "job1" "t1" ⟨.ok [], false⟩).1)
        "job1").getD []) "status" = some (JVal.s "completed") ∧
    getField ((getJob (load_status (coordinate_job c3_rowResult (fun _ => true)
        (fun _ => true) 3 ["r1", "r2", "r3", "r4", "r5"] "job1" "t1" ⟨.ok [], false⟩).1)
        "job1").getD []) "processed"
      = some (JVal.n (["r1", "r2", "r3", "r4", "r5"] : List String).length) ∧
    getField ((getJob (load_status (coordinate_job c3_rowResult (fun _ => true)
        (fun _ => true) 3 ["r1", "r2", "r3", "r4", "r5"] "job1" "t1" ⟨.ok [], false⟩).1)
        "job1").getD []) "errors" = some (JVal.n 0) ∧
    (coordinate_job c3_rowResult (fun _ => true) (fun _ => true) 3
        ["r1", "r2", "r3", "r4", "r5"] "job1" "t1" ⟨.ok [], false⟩).2.2.written
      = successes c3_rowResult ["r1", "r2", "r3", "r4", "r5"]) :=
  ⟨rfl, by decide,
   C3_partial_failure_amended c3_rowResult (fun _ => true) (fun _ => true) 3
     ["r1", "r2", "r3", "r4", "r5"] "job1" "t1" ⟨.ok [], false⟩ rfl (by decide)
     (fun _ => rfl) (fun _ => rfl)⟩

theorem progress_update_fields (now : String) (st : CoordState) :
    numField (progress_update now st) "processed" = st.processed ∧
    numField (progress_update now st) "errors" = st.errors ∧
    getField (progress_update now st) "total_rows" = none := by
  refine ⟨?_, ?_, ?_⟩ <;> simp [progress_update, numField, getField, List.find?]

theorem final_update_fields (now : String) (st : CoordState) :
    numField (final_update now st) "processed" = st.processed ∧
    numField (final_update now st) "errors" = st.errors ∧
    getField (final_update now st) "total_rows" = none := by
  refine ⟨?_, ?_, ?_⟩ <;> simp [final_update, numField, getField, List.find?]

theorem handle_result_fold_processed (writeOk : Nat → Bool) :
    ∀ (rs : List RowOutcome) (st : CoordState),
      (rs.foldl (handle_result writeOk) st).processed = st.processed := by
  intro rs
  induction rs with
  | nil => intro st; rfl
  | cons o rest ih =>
    intro st
    rw [List.foldl_cons]
    cases o with
    | ok rid res =>
      rw [handle_result]
      by_cases hlen : 10 ≤ (st.pending ++ [(rid, res)]).length
      · rw [if_pos hlen]
        by_cases hwk : writeOk st.writeCalls = true
        · rw [if_pos hwk, ih]
        · rw [if_neg hwk, ih]
      · rw [if_neg hlen, ih]
    | err rid e => rw [handle_result, ih]

theorem final_flush_mono (writeOk : Nat → Bool) (st : CoordState) :
    (final_flush writeOk st).processed = st.processed ∧
    st.errors ≤ (final_flush writeOk st).errors := by
  rw [final_flush]
  by_cases hp : st.pending = []
  · rw [if_pos hp]
    exact ⟨rfl, le_rfl⟩
  · rw [if_neg hp]
    by_cases hwk : writeOk st.writeCalls = true
    · rw [if_pos hwk]
      exact ⟨rfl, le_rfl⟩
    · rw [if_neg hwk]
      exact ⟨rfl, Nat.le_add_right _ _⟩

theorem events_progress_count (rowResult : String → Except String String)
    (initOk : Nat → Bool) :
    ∀ (batches : List (List String)) (i : Nat),
      (events_from rowResult initOk i batches).countP (fun e => e == StatusEvent.progress)
        ≤ batches.flatten.length := by
  intro batches
  induction batches with
  | nil => intro i; simp [events_from]
  | cons b rest ih =>
    intro i
    rw [events_from, List.countP_append, List.flatten_cons, List.length_append]
    have hb : ((worker_batch rowResult (initOk i) b).2).countP
        (fun e => e == StatusEvent.progress) ≤ b.length := by
      rw [worker_batch]
      by_cases hio : initOk i = true
      · rw [if_pos hio]
        have hcomp : ((fun e => e == StatusEvent.progress)
            ∘ (fun _ : String => StatusEvent.progress)) = fun _ => true := by
          funext x
          rfl
        rw [List.countP_map, hcomp, List.countP_true]
      · rw [if_neg hio]
        have hzero : (([StatusEvent.worker_error] : List StatusEvent).countP
            (fun e => e == StatusEvent.progress)) = 0 := by decide
        rw [hzero]
        exact Nat.zero_le _
    exact Nat.add_le_add hb (ih (i + 1))

theorem mem_of_getLast?_mem {α : Type} {l : List α} {x : α} (h : x ∈ l.getLast?) :
    x ∈ l := by
  rcases List.mem_getLast?_eq_getLast h with ⟨hne, rfl⟩
  exact List.getLast_mem hne

theorem status_updates_spec (now : String) :
    ∀ (es : List StatusEvent) (st : CoordState),
      (status_updates now st es).1.pending = st.pending ∧
      st.processed ≤ (status_updates now st es).1.processed ∧
      st.errors ≤ (status_updates now st es).1.errors ∧
      (status_updates now st es).1.processed
        = st.processed + es.countP (fun e => e == StatusEvent.progress) ∧
      List.Chain' (fun a b => usum a ≤ usum b) (status_updates now st es).2 ∧
      ∀ u ∈ (status_updates now st es).2,
        getField u "total_rows" = none ∧
        usum u ≤ (status_updates now st es).1.processed
            + (status_updates now st es).1.errors ∧
        numField u "processed" ≤ (status_updates now st es).1.processed ∧
        st.processed + st.errors ≤ usum u := by
  intro es
  induction es with
  | nil =>
    intro st
    refine ⟨rfl, le_rfl, le_rfl, by simp [status_updates, List.countP_nil],
      List.chain'_nil, fun u hu => absurd hu (List.not_mem_nil u)⟩
  | cons e rest ih =>
    intro st
    obtain ⟨ihpend, ihple, ihele, ihcount, ihchain, ihall⟩ := ih (handle_status st e)
    have hpend : (handle_status st e).pending = st.pending := by cases e <;> rfl
    have hple : st.processed ≤ (handle_status st e).processed := by
      cases e <;> simp [handle_status]
    have hele : st.errors ≤ (handle_status st e).errors := by
      cases e <;> simp [handle_status]
    have hsum1 : (handle_status st e).processed + (handle_status st e).errors
        = st.processed + st.errors + 1 := by
      cases e <;> simp [handle_status] <;> omega
    have hpcount : (handle_status st e).processed
        = st.processed + (if (e == StatusEvent.progress) = true then 1 else 0) := by
      cases e <;> simp [handle_status]
    have husum : usum (progress_update now (handle_status st e))
        = (handle_status st e).processed + (handle_status st e).errors := by
      obtain ⟨h1, h2, _⟩ := progress_update_fields now (handle_status st e)
      rw [usum, h1, h2]
    simp only [status_updates]
    refine ⟨ihpend.trans hpend, hple.trans ihple, hele.trans ihele, ?_, ?_, ?_⟩
    · rw [ihcount, hpcount, List.countP_cons]
      omega
    · rw [List.chain'_cons']
      refine ⟨?_, ihchain⟩
      intro b hb
      rw [husum]
      exact (ihall b (List.mem_of_mem_head? hb)).2.2.2
    · intro u hu
      rcases List.mem_cons.mp hu with he | hu'
      · subst he
        obtain ⟨h1, h2, h3⟩ := progress_update_fields now (handle_status st e)
        refine ⟨h3, ?_, ?_, ?_⟩
        · rw [husum]
          exact Nat.add_le_add ihple ihele
        · rw [h1]
          exact ihple
        · rw [husum, hsum1]
          exact Nat.le_succ _
      · obtain ⟨h1, h2, h3, h4⟩ := ihall u hu'
        refine ⟨h1, h2, h3, ?_⟩
        calc st.processed + st.errors
            ≤ (handle_status st e).processed + (handle_status st e).errors := by
              rw [hsum1]; exact Nat.le_succ _
          _ ≤ usum u := h4

theorem fold_updates_preserves_absent (job_id k : String) :
    ∀ (us : List Record) (fs : FS), fs.saveFails = false →
      (∀ u ∈ us, getField u k = none) →
      getField ((getJob (load_status
          (us.foldl (fun f v => update_job_status f job_id v) fs)) job_id).getD []) k
        = getField ((getJob (load_status fs) job_id).getD []) k := by
  intro us
  induction us with
  | nil => intro fs hs _; rfl
  | cons u rest ih =>
    intro fs hs hall
    rw [List.foldl_cons]
    obtain ⟨hl, hsf⟩ := load_update fs job_id u hs
    rw [ih _ hsf (fun v hv => hall v (by simp [hv])), hl, getJob_setJob, if_pos rfl]
    simp [getField_mergeRecord, hall u (by simp), Option.or]

/-- C4.  Amended progress-counter invariants, for every per-row
oracle, worker/write outcome, positive batch size and store: none of
the coordinator's job-store updates ever touches `total_rows` (so the
total fixed at start is preserved — conjunct 4); the persisted
`processed + errors` value is non-decreasing across the successive
updates; and `processed` alone never exceeds the row count.  The
claimed bound `processed + failed ≤ total` fails for the failure
counter (`errors`): rows of a failed bulk write are counted both as
processed and as errors — see the counterexample; and the literal
`failed` field is simply never updated after start. -/
theorem C4_progress_amended (rowResult : String → Except String String)
    (initOk writeOk : Nat → Bool) (bs : Nat) (rows : List String)
    (job_id now : String) (fs : FS)
    (hs : fs.saveFails = false) (hbs : 0 < bs) :
    (∀ u ∈ (coordinate_job rowResult initOk writeOk bs rows job_id now fs).2.1,
        getField u "total_rows" = none) ∧
    List.Chain' (fun a b => usum a ≤ usum b)
      (coordinate_job rowResult initOk writeOk bs rows job_id now fs).2.1 ∧
    (∀ u ∈ (coordinate_job rowResult initOk writeOk bs rows job_id now fs).2.1,
        numField u "processed" ≤ rows.length) ∧
    getField ((getJob (load_status
        (coordinate_job rowResult initOk writeOk bs rows job_id now fs).1)
        job_id).getD []) "total_rows"
      = getField ((getJob (load_status fs) job_id).getD []) "total_rows" := by
  simp only [coordinate_job]
  by_cases hemp : (results_from rowResult initOk 0 (make_batches bs rows)).isEmpty = true
  · have hnil : results_from rowResult initOk 0 (make_batches bs rows) = [] :=
      List.isEmpty_iff.mp hemp
    rw [hnil]
    simp only [List.isEmpty_nil, eq_self_iff_true, if_true, List.foldl_nil,
      List.nil_append]
    have hfl : final_flush writeOk ⟨[], 0, 0, [], 0⟩ = ⟨[], 0, 0, [], 0⟩ := rfl
    rw [hfl]
    obtain ⟨hf1, hf2, hf3⟩ := final_update_fields now ⟨[], 0, 0, [], 0⟩
    refine ⟨?_, List.chain'_singleton _, ?_, ?_⟩
    · intro u hu
      rw [List.mem_singleton] at hu
      subst hu
      exact hf3
    · intro u hu
      rw [List.mem_singleton] at hu
      subst hu
      rw [hf1]
      exact Nat.zero_le _
    · exact fold_updates_preserves_absent job_id "total_rows"
        [final_update now ⟨[], 0, 0, [], 0⟩] fs hs
        (fun u hu => by
          rw [List.mem_singleton] at hu
          subst hu
          exact hf3)
  · rw [Bool.not_eq_true] at hemp
    simp only [hemp, Bool.false_eq_true, if_false]
    obtain ⟨hpend, hple, hele, hpcount, hchain, hall⟩ := status_updates_spec now
      (events_from rowResult initOk 0 (make_batches bs rows))
      ((results_from rowResult initOk 0 (make_batches bs rows)).foldl
        (handle_result writeOk) ⟨[], 0, 0, [], 0⟩)
    set st1 := (results_from rowResult initOk 0 (make_batches bs rows)).foldl
      (handle_result writeOk) ⟨[], 0, 0, [], 0⟩ with hst1
    set st2 := (status_updates now st1
      (events_from rowResult initOk 0 (make_batches bs rows))).1 with hst2
    set us := (status_updates now st1
      (events_from rowResult initOk 0 (make_batches bs rows))).2 with hus
    set st3 := final_flush writeOk st2 with hst3def
    obtain ⟨hm1, hm2⟩ := final_flush_mono writeOk st2
    rw [← hst3def] at hm1 hm2
    obtain ⟨hg1, hg2, hg3⟩ := final_update_fields now st3
    have hst1p : st1.processed = 0 := by
      rw [hst1]
      exact handle_result_fold_processed writeOk _ ⟨[], 0, 0, [], 0⟩
    have hst2p : st2.processed ≤ rows.length := by
      rw [hpcount, hst1p, Nat.zero_add]
      calc (events_from rowResult initOk 0 (make_batches bs rows)).countP
            (fun e => e == StatusEvent.progress)
          ≤ (make_batches bs rows).flatten.length :=
            events_progress_count rowResult initOk (make_batches bs rows) 0
        _ = rows.length := by rw [make_batches_flatten bs hbs rows]
    have husumf : usum (final_update now st3) = st3.processed + st3.errors := by
      rw [usum, hg1, hg2]
    refine ⟨?_, ?_, ?_, ?_⟩
    · intro u hu
      rcases List.mem_append.mp hu with hl | hr
      · exact (hall u hl).1
      · rw [List.mem_singleton] at hr
        subst hr
        exact hg3
    · rw [List.chain'_append]
      refine ⟨hchain, List.chain'_singleton _, ?_⟩
      intro x hx y hy
      simp only [List.head?_cons, Option.mem_def, Option.some.injEq] at hy
      subst hy
      have hxm := mem_of_getLast?_mem hx
      rw [husumf]
      calc usum x ≤ st2.processed + st2.errors := (hall x hxm).2.1
        _ ≤ st3.processed + st3.errors := by
            rw [hm1]
            exact Nat.add_le_add_left hm2 _
    · intro u hu
      rcases List.mem_append.mp hu with hl | hr
      · exact ((hall u hl).2.2.1).trans hst2p
      · rw [List.mem_singleton] at hr
        subst hr
        rw [hg1, hm1]
        exact hst2p
    · refine fold_updates_preserves_absent job_id "total_rows" _ fs hs ?_
      intro u hu
      rcases List.mem_append.mp hu with hl | hr
      · exact (hall u hl).1
      · rw [List.mem_singleton] at hr
        subst hr
        exact hg3

/-- The job store right after `start_analysis` accepted a 10-row job. -/
def c4_start_fs : FS :=
  update_job_status ⟨.ok [], false⟩ "job1"
    [("status", JVal.s "running"), ("total_rows", JVal.n 10), ("processed", JVal.n 0),
     ("failed", JVal.n 0), ("timestamps", JVal.d [("created", "t0"), ("updated", "t0")])]

def c4_rows : List String :=
  ["r01", "r02", "r03", "r04", "r05", "r06", "r07", "r08", "r09", "r10"]

/-- C4 counterexample.  10 rows all succeed but the bulk write fails:
the 10 rows of the failed write are counted BOTH as processed and as
errors, so the persisted record ends with `total_rows = 10`,
`processed = 10`, `errors = 10` — `processed + errors = 20 > 10 =
total` — refuting `processed + failed ≤ total` for the failure counter
the coordinator actually maintains. -/
theorem C4_counterexample :
    getField ((getJob (load_status (coordinate_job (fun rid => .ok ("ok_" ++ rid))
        (fun _ => true) (fun _ => false) 3 c4_rows "job1" "t1" c4_start_fs).1)
        "job1").getD []) "total_rows" = some (JVal.n 10) ∧
    getField ((getJob (load_status (coordinate_job (fun rid => .ok ("ok_" ++ rid))
        (fun _ => true) (fun _ => false) 3 c4_rows "job1" "t1" c4_start_fs).1)
        "job1").getD []) "processed" = some (JVal.n 10) ∧
    getField ((getJob (load_status (coordinate_job (fun rid => .ok ("ok_" ++ rid))
        (fun _ => true) (fun _ => false) 3 c4_rows "job1" "t1" c4_start_fs).1)
        "job1").getD []) "errors" = some (JVal.n 10) ∧
    ¬ (10 + 10 ≤ 10) := by
  refine ⟨by decide, by decide, by decide, by decide⟩

/-- C4 witness: the amended invariants evaluated on the 10-row
write-failure run. -/
theorem C4_progress_amended_witness :
    c4_start_fs.saveFails = false ∧ 0 < 3 ∧
    ((∀ u ∈ (coordinate_job (fun rid => .ok ("ok_" ++ rid)) (fun _ => true)
        (fun _ => false) 3 c4_rows "job1" "t1" c4_start_fs).2.1,
        getField u "total_rows" = none) ∧
    List.Chain' (fun a b => usum a ≤ usum b)
      (coordinate_job (fun rid => .ok ("ok_" ++ rid)) (fun _ => true)
        (fun _ => false) 3 c4_rows "job1" "t1" c4_start_fs).2.1 ∧
    (∀ u ∈ (coordinate_job (fun rid => .ok ("ok_" ++ rid)) (fun _ => true)
        (fun _ => false) 3 c4_rows "job1" "t1" c4_start_fs).2.1,
        numField u "processed" ≤ c4_rows.length) ∧
    getField ((getJob (load_status
        (coordinate_job (fun rid => .ok ("ok_" ++ rid)) (fun _ => true)
          (fun _ => false) 3 c4_rows "job1" "t1" c4_start_fs).1)
        "job1").getD []) "total_rows"
      = getField ((getJob (load_status c4_start_fs) "job1").getD []) "total_rows") :=
  ⟨by decide, by decide,
   C4_progress_amended (fun rid => .ok ("ok_" ++ rid)) (fun _ => true) (fun _ => false)
     3 c4_rows "job1" "t1" c4_start_fs (by decide) (by decide)⟩

end SmartsheetBatch













